import Mathlib

/-
Verification of the incremental indexing pipeline of tuna-indexer
(src/app/lib/fileIndexer.js) against its natural-language specification.

The JavaScript class is shallowly embedded as pure Lean functions:

  * the lokijs collection of cached file records becomes a list of
    FileRec values, looked up by the unique file key;
  * the per-file asynchronous step _handleNextFile becomes the function
    handleFile, driven by a FileEnv value describing the outcomes of the
    three external calls the step makes for one file: fs.pathExists,
    fs.statSync, and the tag read through jsmediatags;
  * the sequential scheduling of files (setImmediate chaining over the
    snapshot of keys taken at run start) becomes the fold scanFiles;
  * _finishHandlingChanges becomes finishCore, taking two clock readings
    as parameters, one for each call of Date getTime in the source;
  * the run guard in _startHandlingFileChanges and the try-finally around
    finalization become tickGuard and finalizeRun;
  * startup loading of the persisted store becomes startupLoad.

Fields that the JavaScript leaves undefined on a freshly built record are
modelled with Option, and the catch branch of the per-file step is
translated exactly as written, including the fact that it dereferences the
record variable even when no record was ever assigned.
-/

/-- Discriminated failure shape of an exception caught in the per-file step.
The source distinguishes errors whose type field equals the string tagfail
from every other thrown value; the payload models JSON.stringify of the
error. -/
inductive JsErr where
  | tagfail (info : String)
  | other (info : String)
deriving Repr, DecidableEq

/-- Result of a successful jsmediatags read: a kind discriminator string
and the four tag fields the source extracts, each possibly undefined. -/
structure MediaTag where
  type : String
  title : Option String
  album : Option String
  track : Option String
  artist : Option String
deriving Repr, DecidableEq

/-- Tag data stored on a cached record, as built in the success branch of
the per-file step. -/
structure TagData where
  name : Option String
  album : Option String
  track : Option String
  artist : Option String
  clippedPath : String
deriving Repr, DecidableEq

/-- One cached record of the lokijs fileData collection. The isValid field
is Option because the catch branch of the source inserts records without
ever assigning isValid. -/
structure FileRec where
  file : String
  mtime : String
  tagData : Option TagData
  isValid : Option Bool
  dirty : Bool
deriving Repr, DecidableEq

/-- One item element of the rebuilt XML index artifact, carrying the four
attributes written by the source. -/
structure Entry where
  album : Option String
  artist : Option String
  name : Option String
  path : String
deriving Repr, DecidableEq

/-- Outcomes of the three external calls the per-file step makes for one
file: the existence check, the stat call, and the tag read. An error value
models the call throwing or rejecting. -/
structure FileEnv where
  pathExistsR : Except JsErr Bool
  statMtime : Except JsErr String
  tagRead : Except JsErr MediaTag

/-- Test that an optional string field is present and non-empty. -/
def presentNonEmpty : Option String → Bool
  | none => false
  | some s => s != ""

/-- Modelled from the spec: src/app/lib/istagValid.js is required by the
indexer but is not under src/. Section 4.3 of the spec says a tag record
is valid only if name, album, artist and the derived relative path are
present and non-empty; the track number is not required. -/
def isTagValid (t : TagData) : Bool :=
  presentNonEmpty t.name && presentNonEmpty t.album && presentNonEmpty t.artist
    && (t.clippedPath != "")

/-- Modelled from the spec: pathHelper.toUnixPath and the replace of the
watch root are not under src/. Section 6 and the glossary describe the
clipped path as the file path expressed relative to the watch root with a
leading slash. -/
def clippedPathOf (watchPath file : String) : String :=
  "/" ++ String.mk (file.data.drop watchPath.data.length)

/-- Lookup by the unique file key, modelling fileTable.by of lokijs. -/
def lokiBy (table : List FileRec) (file : String) : Option FileRec :=
  table.find? (fun r => r.file == file)

/-- Insert a record, modelling fileTable.insert of lokijs. -/
def lokiInsert (table : List FileRec) (r : FileRec) : List FileRec :=
  table ++ [r]

/-- Update the record with the same file key, modelling fileTable.update
of lokijs on a collection whose file keys are unique. -/
def lokiUpdate (table : List FileRec) (r : FileRec) : List FileRec :=
  table.map (fun x => if x.file == r.file then r else x)

/-- Records currently flagged dirty, modelling the find query on the dirty
field. -/
def lokiFindDirty (table : List FileRec) : List FileRec :=
  table.filter (fun r => r.dirty)

/-- Payload of a caught error, modelling JSON.stringify of the error. -/
def errText : JsErr → String
  | JsErr.tagfail s => s
  | JsErr.other s => s

/-- Message chosen by the catch branch, depending on whether the error has
type tagfail. -/
def failMessage (file : String) : JsErr → String
  | JsErr.tagfail _ => file ++ " tag read fail."
  | JsErr.other _ => file ++ " could not be read, is it properly tagged?"

/-- Result of the per-file step: the table afterwards, whether the watcher
remove call was made, whether the tag reader was invoked, the lines
appended to the error log, whether the run error flag was raised by this
step, and whether an exception escaped the catch block uncaught. -/
structure StepOut where
  table : List FileRec
  watcherRemoved : Bool
  tagReadInvoked : Bool
  logLines : List String
  errorsOccurred : Bool
  uncaught : Bool
deriving Repr, DecidableEq

/-- The freshly built record of the source when no cached record exists:
only the file field is assigned; every other field is still undefined,
modelled by the neutral values below, all of which are overwritten before
the record can be stored, except isValid in the catch branch. -/
def freshRec (file : String) : FileRec :=
  { file := file, mtime := "", tagData := none, isValid := none, dirty := false }

/-- Translation of the catch branch of the per-file step, reachable only
once the record variable has been assigned. It stores a tag-absent record,
writes one log line and raises the run error flag. The mtime is the stat
value when the stat call had run, and the empty string otherwise. -/
def catchStep (table : List FileRec) (fileCachedData : FileRec)
    (fileStats : Option String) (insert tagInvoked : Bool) (e : JsErr)
    (file : String) : StepOut :=
  let failedRec : FileRec :=
    { fileCachedData with dirty := false, mtime := fileStats.getD "", tagData := none }
  { table := if insert then lokiInsert table failedRec else lokiUpdate table failedRec,
    watcherRemoved := false,
    tagReadInvoked := tagInvoked,
    logLines := [failMessage file e ++ " : " ++ errText e],
    errorsOccurred := true,
    uncaught := false }

/-- The tag data object built in the success branch of the per-file step
from the extracted tag fields and the clipped path. -/
def tagDataOf (watchPath : String) (tag : MediaTag) (file : String) : TagData :=
  { name := tag.title, album := tag.album, track := tag.track,
    artist := tag.artist, clippedPath := clippedPathOf watchPath file }

/-- Translation of the per-file step from the tag read onwards, once the
record variable, the optional stat result and the insert flag are fixed.
On success with kind ID3 or MP4 the record is rebuilt with the extracted
fields, marked dirty, given the stat mtime when the stat call had run and
the empty string otherwise, and upserted. On success with any other kind
the source falls through its kind test without storing, logging or
flagging anything. On failure the catch branch runs. -/
def afterLookup (watchPath : String) (table : List FileRec) (env : FileEnv)
    (file : String) (fileCachedData : FileRec) (fileStats : Option String)
    (insert : Bool) : StepOut :=
  match env.tagRead with
  | Except.error e => catchStep table fileCachedData fileStats insert true e file
  | Except.ok tag =>
    if tag.type == "ID3" || tag.type == "MP4" then
      let td : TagData := tagDataOf watchPath tag file
      let updatedRec : FileRec :=
        { fileCachedData with
          dirty := true, mtime := fileStats.getD "",
          tagData := some td, isValid := some (isTagValid td) }
      { table := if insert then lokiInsert table updatedRec else lokiUpdate table updatedRec,
        watcherRemoved := false,
        tagReadInvoked := true,
        logLines := [],
        errorsOccurred := false,
        uncaught := false }
    else
      { table := table, watcherRemoved := false, tagReadInvoked := true,
        logLines := [], errorsOccurred := false, uncaught := false }

/-- Translation of one iteration of _handleNextFile for a given file. If
the existence check throws, the catch branch dereferences the still
undefined record variable and itself throws, so nothing is stored or
logged and the exception escapes uncaught. If the file does not exist the
watcher remove call is made. On a cache hit the stat call runs, and a
matching mtime string skips the file. Otherwise the tag read proceeds via
afterLookup; note that for a file with no cached record the stat call
never runs. -/
def handleFile (watchPath : String) (table : List FileRec) (env : FileEnv)
    (file : String) : StepOut :=
  match env.pathExistsR with
  | Except.error _ =>
    { table := table, watcherRemoved := false, tagReadInvoked := false,
      logLines := [], errorsOccurred := false, uncaught := true }
  | Except.ok ex =>
    if !ex then
      { table := table, watcherRemoved := true, tagReadInvoked := false,
        logLines := [], errorsOccurred := false, uncaught := false }
    else
      match lokiBy table file with
      | some fileCachedData =>
        match env.statMtime with
        | Except.error e => catchStep table fileCachedData none false false e file
        | Except.ok mt =>
          if mt == fileCachedData.mtime then
            { table := table, watcherRemoved := false, tagReadInvoked := false,
              logLines := [], errorsOccurred := false, uncaught := false }
          else
            afterLookup watchPath table env file fileCachedData (some mt) false
      | none =>
        afterLookup watchPath table env file (freshRec file) none true

/-- Run-level state threaded through the sequential scan: the cache table,
the current watcher file set, the accumulated error-log lines, the run
error flag, the list of files for which the tag reader was invoked, and
whether any per-file step let an exception escape uncaught. -/
structure ScanState where
  table : List FileRec
  watcherFiles : List String
  logLines : List String
  errorsOccurred : Bool
  tagReads : List String
  uncaughtAny : Bool
deriving Repr, DecidableEq

/-- Apply the per-file step for one file to the run state. The watcher
remove call is modelled, from the spec description of the watcher
interface, as erasing the path from the current file set. -/
def applyStep (watchPath : String) (envOf : String → FileEnv)
    (st : ScanState) (file : String) : ScanState :=
  let out := handleFile watchPath st.table (envOf file) file
  { table := out.table,
    watcherFiles := if out.watcherRemoved then st.watcherFiles.erase file else st.watcherFiles,
    logLines := st.logLines ++ out.logLines,
    errorsOccurred := st.errorsOccurred || out.errorsOccurred,
    tagReads := if out.tagReadInvoked then st.tagReads ++ [file] else st.tagReads,
    uncaughtAny := st.uncaughtAny || out.uncaught }

/-- Sequential processing of the snapshot of file keys, modelling the
setImmediate chain of _handleNextFile: the finally clause always schedules
the next file, so the fold proceeds through the whole list. -/
def scanFiles (watchPath : String) (envOf : String → FileEnv) :
    List String → ScanState → ScanState
  | [], st => st
  | f :: fs, st => scanFiles watchPath envOf fs (applyStep watchPath envOf st f)

/-- A whole scan phase: the fresh run state of _startHandlingFileChanges
(truncated log, cleared error flag) folded over the snapshot of keys taken
at run start. -/
def runScan (watchPath : String) (envOf : String → FileEnv)
    (table0 : List FileRec) (watcher0 : List String) : ScanState :=
  scanFiles watchPath envOf watcher0
    { table := table0, watcherFiles := watcher0, logLines := [],
      errorsOccurred := false, tagReads := [], uncaughtAny := false }

/-- Translation of the entry-building loop of _finishHandlingChanges over
the re-fetched list of current watcher paths: for each path in order, a
missing record is skipped silently, a record without tag data produces a
log line, a record with invalid tag data produces a log line and raises
the error flag, and a valid record produces one item entry. Returns the
entries, the log lines, and whether any invalid record was seen. -/
def buildEntries (table : List FileRec) : List String → List Entry × List String × Bool
  | [] => ([], [], false)
  | p :: ps =>
    let rest := buildEntries table ps
    match lokiBy table p with
    | none => rest
    | some fileData =>
      match fileData.tagData with
      | none => (rest.1, (p ++ " has no tag data") :: rest.2.1, rest.2.2)
      | some id3 =>
        if isTagValid id3 then
          ({ album := id3.album, artist := id3.artist, name := id3.name,
             path := id3.clippedPath } :: rest.1, rest.2.1, rest.2.2)
        else
          (rest.1, (id3.clippedPath ++ " isn\x27t properly tagged") :: rest.2.1, true)

/-- Result of finalization: the table afterwards, the rebuilt artifact as
its date attribute and entries when one was written, the status marker
date when one was written, the total log lines, and the run error flag. -/
structure CoreOut where
  table : List FileRec
  artifact : Option (Nat × List Entry)
  statusDate : Option Nat
  logLines : List String
  errorsOccurred : Bool
deriving Repr, DecidableEq

/-- Translation of the body of _finishHandlingChanges. The clock readings
t1 and t2 model the two separate Date getTime calls of the source: t1 is
taken when the artifact root element is opened, t2 after the artifact has
been written, when the status marker object is built. With no dirty
records the body returns before writing anything. Otherwise the current
watcher paths are re-fetched, the artifact is rebuilt as a full snapshot,
the status marker is written, dirty flags are cleared, and every record
whose path is absent from the current watcher set is removed. -/
def finishCore (t1 t2 : Nat) (st : ScanState) : CoreOut :=
  let dirty := lokiFindDirty st.table
  if dirty.isEmpty then
    { table := st.table, artifact := none, statusDate := none,
      logLines := st.logLines, errorsOccurred := st.errorsOccurred }
  else
    let allProperties := st.watcherFiles
    let built := buildEntries st.table allProperties
    let cleared := st.table.map (fun r => if r.dirty then { r with dirty := false } else r)
    let pruned := cleared.filter (fun r => allProperties.contains r.file)
    { table := pruned,
      artifact := some (t1, built.1),
      statusDate := some t2,
      logLines := st.logLines ++ built.2.1,
      errorsOccurred := st.errorsOccurred || built.2.2 }

/-- Observable outcome of one complete triggered run: scan then
finalization. -/
structure RunOut where
  table : List FileRec
  watcherFiles : List String
  artifact : Option (Nat × List Entry)
  statusDate : Option Nat
  logLines : List String
  errorsOccurred : Bool
deriving Repr, DecidableEq

/-- One complete triggered run over a starting cache table and watcher
file set. -/
def runOnce (watchPath : String) (envOf : String → FileEnv) (t1 t2 : Nat)
    (table0 : List FileRec) (watcher0 : List String) : RunOut :=
  let sc := runScan watchPath envOf table0 watcher0
  let fin := finishCore t1 t2 sc
  { table := fin.table, watcherFiles := sc.watcherFiles,
    artifact := fin.artifact, statusDate := fin.statusDate,
    logLines := fin.logLines, errorsOccurred := fin.errorsOccurred }

/-- Spec-side view of one path at rebuild time, named after the words of
the claim: the entry the rebuilt artifact must contain for a path in the
current watcher set whose cached record has tag data present and passes
validation, and no entry otherwise. -/
def entryView (table : List FileRec) (p : String) : Option Entry :=
  match lokiBy table p with
  | none => none
  | some fileData =>
    match fileData.tagData with
    | none => none
    | some id3 =>
      if isTagValid id3 then
        some { album := id3.album, artist := id3.artist, name := id3.name,
               path := id3.clippedPath }
      else none

/-- Spec-side view of the log line rebuild time produces for one path:
records with absent or invalid tag data are logged, others are not. -/
def logView (table : List FileRec) (p : String) : Option String :=
  match lokiBy table p with
  | none => none
  | some fileData =>
    match fileData.tagData with
    | none => some (p ++ " has no tag data")
    | some id3 =>
      if isTagValid id3 then none
      else some (id3.clippedPath ++ " isn\x27t properly tagged")

/-- Spec-side view of whether one path contributes to the run error flag
at rebuild time: exactly the records whose tag data is present but fails
validation. -/
def invalidView (table : List FileRec) (p : String) : Bool :=
  match lokiBy table p with
  | none => false
  | some fileData =>
    match fileData.tagData with
    | none => false
    | some id3 => !(isTagValid id3)

/-- Decidable premise of a no-op run: every file of the snapshot has a
cached record, its existence check succeeds, and its current stat mtime
string equals the cached mtime string. -/
def noopPremise (envOf : String → FileEnv) (table0 : List FileRec)
    (watcher0 : List String) : Bool :=
  watcher0.all fun f =>
    match lokiBy table0 f, (envOf f).pathExistsR, (envOf f).statMtime with
    | some c, Except.ok true, Except.ok mt => mt == c.mtime
    | _, _, _ => false

/-- State read and written by the periodic tick guard of
_startHandlingFileChanges. -/
structure PipeState where
  watcherDirty : Bool
  busy : Bool
  errorsOccurred : Bool
  startFired : Bool
deriving Repr, DecidableEq

/-- Translation of the guard at the top of _startHandlingFileChanges: a
tick with the watcher dirty signal clear does nothing, a tick while busy
does nothing, and otherwise the dirty signal is cleared, the busy guard
set, the error flag reset and the run-start notification fired. The
boolean result reports whether a run started. -/
def tickGuard (s : PipeState) : PipeState × Bool :=
  if !s.watcherDirty then (s, false)
  else if s.busy then (s, false)
  else ({ s with
          watcherDirty := false, busy := true,
          errorsOccurred := false, startFired := true }, true)

/-- Outcome of finalization including its finally clause: the core result
when the try body completed, and the unconditional effects of the finally
clause. -/
structure FinalizeOut where
  core : Option CoreOut
  busy : Bool
  doneFired : Bool
deriving Repr, DecidableEq

/-- Translation of the try-finally of _finishHandlingChanges: whether or
not the body threw somewhere, the finally clause fires the run-complete
notification and clears the busy guard. -/
def finalizeRun (ioThrew : Bool) (t1 t2 : Nat) (st : ScanState) : FinalizeOut :=
  { core := if ioThrew then none else some (finishCore t1 t2 st),
    busy := false,
    doneFired := true }

/-- Result of startup: the initial table and whether the persisted loki
file was deleted. -/
structure StartupOut where
  table : List FileRec
  removedLokiFile : Bool
deriving Repr, DecidableEq

/-- Translation of start together with _loadLokiFromFile and
_createCollection: when the persisted loki file exists it is loaded, and
a load that yields no usable fileData collection deletes the file and
creates an empty collection; when no file exists an empty collection is
created. Totality of this function models that startup completes without
crashing in every case. -/
def startupLoad (lokiFileExists : Bool) (loaded : Option (List FileRec)) : StartupOut :=
  if lokiFileExists then
    match loaded with
    | some t => { table := t, removedLokiFile := false }
    | none => { table := [], removedLokiFile := true }
  else
    { table := [], removedLokiFile := false }

/-- Media tag used by the concrete scenarios below: a complete ID3 tag. -/
def c2Tag : MediaTag :=
  { type := "ID3", title := some "T", album := some "Al",
    track := some "1", artist := some "Ar" }

/-- Environment of the concrete scenarios: every file exists, its current
stat mtime string is 2020, and reading its tag succeeds with a complete
ID3 tag. -/
def c2Env : String → FileEnv := fun _ =>
  { pathExistsR := Except.ok true, statMtime := Except.ok "2020",
    tagRead := Except.ok c2Tag }

/-- First run of the C2 scenario: an empty cache and one fresh file. -/
def c2Run1 : RunOut := runOnce "/w" c2Env 0 0 [] ["/w/a"]

/-- Second run of the C2 scenario: same environment, nothing on disk
changed since the first completed run, same watcher set. -/
def c2Run2 : RunOut := runOnce "/w" c2Env 1 1 c2Run1.table ["/w/a"]

/-- Cached record used in witnesses: already cached with mtime 2020. -/
def w1Rec : FileRec :=
  { file := "/w/a", mtime := "2020", tagData := none, isValid := none, dirty := false }

/-- Environment whose existence check itself throws, before the per-file
step has assigned a record variable. -/
def c10Env : FileEnv :=
  { pathExistsR := Except.error (JsErr.other "boom"), statMtime := Except.ok "2020",
    tagRead := Except.ok c2Tag }

/-- Run state used in the C10 witness. -/
def c10St : ScanState :=
  { table := [w1Rec], watcherFiles := ["/w/a"], logLines := [],
    errorsOccurred := false, tagReads := [], uncaughtAny := false }

/-- Cached record for a path that has been removed from the watcher set. -/
def c4Rec : FileRec :=
  { file := "/w/b", mtime := "m", tagData := none, isValid := none, dirty := false }

/-- A dirty cached record with complete, valid tag data. -/
def c7Rec : FileRec :=
  { file := "/w/a", mtime := "2020",
    tagData := some { name := some "T", album := some "Al", track := some "1",
                      artist := some "Ar", clippedPath := "//a" },
    isValid := some true, dirty := true }

/-- Run state with one dirty valid record, used for finalization
scenarios. -/
def c7St : ScanState :=
  { table := [c7Rec], watcherFiles := ["/w/a"], logLines := [],
    errorsOccurred := false, tagReads := [], uncaughtAny := false }

/-- Run state with one dirty valid record and one orphan record whose
path is absent from the watcher file set. -/
def c4St : ScanState :=
  { table := [c7Rec, c4Rec], watcherFiles := ["/w/a"], logLines := [],
    errorsOccurred := false, tagReads := [], uncaughtAny := false }

/-- Run state with no dirty records and an orphan record. -/
def c4StClean : ScanState :=
  { table := [c4Rec], watcherFiles := [], logLines := [],
    errorsOccurred := false, tagReads := [], uncaughtAny := false }

/-- Environment whose tag read succeeds with a kind that is neither ID3
nor MP4. -/
def c8Env : FileEnv :=
  { pathExistsR := Except.ok true, statMtime := Except.ok "2020",
    tagRead := Except.ok { c2Tag with type := "OGG" } }

/-- Environment whose tag read fails with a tagfail-typed error. -/
def c5Env : FileEnv :=
  { pathExistsR := Except.ok true, statMtime := Except.ok "2021",
    tagRead := Except.error (JsErr.tagfail "bad frame") }

theorem lokiBy_nil (f : String) : lokiBy [] f = none := rfl

theorem lokiBy_cons (x : FileRec) (xs : List FileRec) (f : String) :
    lokiBy (x :: xs) f = if x.file == f then some x else lokiBy xs f := by
  cases hpx : (x.file == f) with
  | true => simp [lokiBy, List.find?_cons_of_pos, hpx]
  | false =>
    have : ¬ ((fun r => r.file == f) x = true) := by simp [hpx]
    simp [lokiBy, List.find?_cons_of_neg, this, hpx]

theorem lokiUpdate_cons (x : FileRec) (xs : List FileRec) (r : FileRec) :
    lokiUpdate (x :: xs) r = (if x.file == r.file then r else x) :: lokiUpdate xs r := rfl

theorem lokiBy_file {table : List FileRec} {f : String} {c : FileRec}
    (h : lokiBy table f = some c) : c.file = f := by
  unfold lokiBy at h
  have hp := List.find?_some h
  simpa using hp

theorem lokiBy_insert_self {table : List FileRec} {f : String} {r : FileRec}
    (hn : lokiBy table f = none) (hr : r.file = f) :
    lokiBy (lokiInsert table r) f = some r := by
  unfold lokiBy lokiInsert
  unfold lokiBy at hn
  rw [List.find?_append, hn]
  simp [hr]

theorem lokiBy_insert_ne {table : List FileRec} {f : String} {r : FileRec}
    (hr : r.file ≠ f) : lokiBy (lokiInsert table r) f = lokiBy table f := by
  unfold lokiBy lokiInsert
  rw [List.find?_append]
  simp [hr]

theorem lokiBy_update_self {table : List FileRec} {f : String} {c r : FileRec}
    (h : lokiBy table f = some c) (hr : r.file = f) :
    lokiBy (lokiUpdate table r) f = some r := by
  induction table with
  | nil => simp [lokiBy_nil] at h
  | cons x xs ih =>
    rw [lokiBy_cons] at h
    rw [lokiUpdate_cons, lokiBy_cons]
    by_cases hx : x.file = f
    · have hxr : (x.file == r.file) = true := by rw [hx, hr]; simp
      rw [hxr]
      simp [hr]
    · have hxf : (x.file == f) = false := by simp [hx]
      rw [hxf] at h
      by_cases hxr : x.file = r.file
      · exact absurd (hxr.trans hr) hx
      · have hxr2 : (x.file == r.file) = false := by simp [hxr]
        rw [hxr2]
        simp only [if_false, Bool.false_eq_true, ite_false, hxf]
        exact ih h

theorem lokiBy_update_ne {table : List FileRec} {f : String} {r : FileRec}
    (hr : r.file ≠ f) : lokiBy (lokiUpdate table r) f = lokiBy table f := by
  induction table with
  | nil => rfl
  | cons x xs ih =>
    rw [lokiUpdate_cons, lokiBy_cons, lokiBy_cons]
    by_cases hxr : x.file = r.file
    · have hxr2 : (x.file == r.file) = true := by simp [hxr]
      have hrf : (r.file == f) = false := by simp [hr]
      have hxf : (x.file == f) = false := by
        have hne : x.file ≠ f := by rw [hxr]; exact hr
        simp [hne]
      rw [hxr2]
      have h1 : (if true = true then r else x) = r := by simp
      rw [h1, hrf, hxf]
      simpa using ih
    · have hxr2 : (x.file == r.file) = false := by simp [hxr]
      rw [hxr2]
      have h1 : (if false = true then r else x) = x := by simp
      rw [h1]
      cases hxf : (x.file == f) with
      | true => simp
      | false => simpa using ih

theorem handleFile_skip {watchPath : String} {table : List FileRec}
    {env : FileEnv} {file : String} {c : FileRec}
    (hc : lokiBy table file = some c)
    (hex : env.pathExistsR = Except.ok true)
    (hst : env.statMtime = Except.ok c.mtime) :
    handleFile watchPath table env file =
      { table := table, watcherRemoved := false, tagReadInvoked := false,
        logLines := [], errorsOccurred := false, uncaught := false } := by
  unfold handleFile
  rw [hex, hc, hst]
  simp

theorem handleFile_earlyThrow {watchPath : String} {table : List FileRec}
    {env : FileEnv} {file : String} {e : JsErr}
    (hex : env.pathExistsR = Except.error e) :
    handleFile watchPath table env file =
      { table := table, watcherRemoved := false, tagReadInvoked := false,
        logLines := [], errorsOccurred := false, uncaught := true } := by
  unfold handleFile
  rw [hex]

theorem handleFile_missing {watchPath : String} {table : List FileRec}
    {env : FileEnv} {file : String}
    (hex : env.pathExistsR = Except.ok false) :
    handleFile watchPath table env file =
      { table := table, watcherRemoved := true, tagReadInvoked := false,
        logLines := [], errorsOccurred := false, uncaught := false } := by
  unfold handleFile
  rw [hex]
  simp

theorem handleFile_statThrow {watchPath : String} {table : List FileRec}
    {env : FileEnv} {file : String} {c : FileRec} {e : JsErr}
    (hc : lokiBy table file = some c)
    (hex : env.pathExistsR = Except.ok true)
    (hst : env.statMtime = Except.error e) :
    handleFile watchPath table env file = catchStep table c none false false e file := by
  unfold handleFile
  rw [hex, hc, hst]
  simp

theorem handleFile_changed {watchPath : String} {table : List FileRec}
    {env : FileEnv} {file : String} {c : FileRec} {mt : String}
    (hc : lokiBy table file = some c)
    (hex : env.pathExistsR = Except.ok true)
    (hst : env.statMtime = Except.ok mt)
    (hmt : (mt == c.mtime) = false) :
    handleFile watchPath table env file =
      afterLookup watchPath table env file c (some mt) false := by
  unfold handleFile
  rw [hex, hc, hst]
  simp [hmt]

theorem handleFile_fresh {watchPath : String} {table : List FileRec}
    {env : FileEnv} {file : String}
    (hc : lokiBy table file = none)
    (hex : env.pathExistsR = Except.ok true) :
    handleFile watchPath table env file =
      afterLookup watchPath table env file (freshRec file) none true := by
  unfold handleFile
  rw [hex, hc]
  simp

theorem afterLookup_tagThrow {watchPath : String} {table : List FileRec}
    {env : FileEnv} {file : String} {c : FileRec} {fs : Option String}
    {ins : Bool} {e : JsErr}
    (htr : env.tagRead = Except.error e) :
    afterLookup watchPath table env file c fs ins = catchStep table c fs ins true e file := by
  unfold afterLookup
  rw [htr]

theorem afterLookup_okEligible {watchPath : String} {table : List FileRec}
    {env : FileEnv} {file : String} {c : FileRec} {fs : Option String}
    {ins : Bool} {tag : MediaTag}
    (htr : env.tagRead = Except.ok tag)
    (hty : (tag.type == "ID3" || tag.type == "MP4") = true) :
    afterLookup watchPath table env file c fs ins =
      { table :=
          if ins then
            lokiInsert table ⟨c.file, fs.getD "", some (tagDataOf watchPath tag file),
              some (isTagValid (tagDataOf watchPath tag file)), true⟩
          else
            lokiUpdate table ⟨c.file, fs.getD "", some (tagDataOf watchPath tag file),
              some (isTagValid (tagDataOf watchPath tag file)), true⟩,
        watcherRemoved := false, tagReadInvoked := true,
        logLines := [], errorsOccurred := false, uncaught := false } := by
  unfold afterLookup
  rw [htr]
  simp [hty]

theorem afterLookup_okOther {watchPath : String} {table : List FileRec}
    {env : FileEnv} {file : String} {c : FileRec} {fs : Option String}
    {ins : Bool} {tag : MediaTag}
    (htr : env.tagRead = Except.ok tag)
    (hty : (tag.type == "ID3" || tag.type == "MP4") = false) :
    afterLookup watchPath table env file c fs ins =
      { table := table, watcherRemoved := false, tagReadInvoked := true,
        logLines := [], errorsOccurred := false, uncaught := false } := by
  unfold afterLookup
  rw [htr]
  simp [hty]

theorem handleFile_table_shape (watchPath : String) (table : List FileRec)
    (env : FileEnv) (file : String) :
    (handleFile watchPath table env file).table = table ∨
      ∃ r : FileRec, r.file = file ∧
        ((handleFile watchPath table env file).table = lokiInsert table r ∨
         (handleFile watchPath table env file).table = lokiUpdate table r) := by
  cases hpe : env.pathExistsR with
  | error e => rw [handleFile_earlyThrow hpe]; left; rfl
  | ok ex =>
    cases ex with
    | false => rw [handleFile_missing hpe]; left; rfl
    | true =>
      cases hby : lokiBy table file with
      | none =>
        rw [handleFile_fresh hby hpe]
        cases htr : env.tagRead with
        | error e =>
          rw [afterLookup_tagThrow htr]
          right
          refine ⟨⟨file, Option.getD none "", none, none, false⟩, rfl, Or.inl ?_⟩
          simp [catchStep, freshRec]
        | ok tag =>
          cases hty : (tag.type == "ID3" || tag.type == "MP4") with
          | true =>
            rw [afterLookup_okEligible htr hty]
            right
            refine ⟨⟨file, Option.getD none "", some (tagDataOf watchPath tag file),
              some (isTagValid (tagDataOf watchPath tag file)), true⟩, rfl, Or.inl ?_⟩
            simp [freshRec]
          | false =>
            rw [afterLookup_okOther htr hty]
            left; rfl
      | some c =>
        have hcf : c.file = file := lokiBy_file hby
        cases hsm : env.statMtime with
        | error e =>
          rw [handleFile_statThrow hby hpe hsm]
          right
          refine ⟨⟨c.file, Option.getD none "", none, c.isValid, false⟩, hcf, Or.inr ?_⟩
          simp [catchStep]
        | ok mt =>
          cases hmt : (mt == c.mtime) with
          | true =>
            have hmt2 : mt = c.mtime := by simpa using hmt
            rw [handleFile_skip hby hpe (by rw [hsm, hmt2])]
            left; rfl
          | false =>
            rw [handleFile_changed hby hpe hsm hmt]
            cases htr : env.tagRead with
            | error e =>
              rw [afterLookup_tagThrow htr]
              right
              refine ⟨⟨c.file, Option.getD (some mt) "", none, c.isValid, false⟩, hcf, Or.inr ?_⟩
              simp [catchStep]
            | ok tag =>
              cases hty : (tag.type == "ID3" || tag.type == "MP4") with
              | true =>
                rw [afterLookup_okEligible htr hty]
                right
                refine ⟨⟨c.file, Option.getD (some mt) "", some (tagDataOf watchPath tag file),
                  some (isTagValid (tagDataOf watchPath tag file)), true⟩, hcf, Or.inr ?_⟩
                simp
              | false =>
                rw [afterLookup_okOther htr hty]
                left; rfl

theorem handleFile_preserves_other {watchPath : String} {table : List FileRec}
    {env : FileEnv} {g f : String} (hne : g ≠ f) :
    lokiBy (handleFile watchPath table env g).table f = lokiBy table f := by
  rcases handleFile_table_shape watchPath table env g with h | ⟨r, hrf, h | h⟩
  · rw [h]
  · rw [h]
    exact lokiBy_insert_ne (by rw [hrf]; exact hne)
  · rw [h]
    exact lokiBy_update_ne (by rw [hrf]; exact hne)

theorem scanFiles_cons (watchPath : String) (envOf : String → FileEnv)
    (g : String) (gs : List String) (st : ScanState) :
    scanFiles watchPath envOf (g :: gs) st =
      scanFiles watchPath envOf gs (applyStep watchPath envOf st g) := rfl

theorem applyStep_skip {watchPath : String} {envOf : String → FileEnv}
    {st : ScanState} {f : String} {c : FileRec}
    (hc : lokiBy st.table f = some c)
    (hex : (envOf f).pathExistsR = Except.ok true)
    (hst : (envOf f).statMtime = Except.ok c.mtime) :
    applyStep watchPath envOf st f = st := by
  have hstep := @handleFile_skip watchPath st.table (envOf f) f c hc hex hst
  cases st
  simp [applyStep] at hstep ⊢
  rw [hstep]
  simp

theorem scanFiles_preserves {watchPath : String} {envOf : String → FileEnv}
    {f : String} {c : FileRec}
    (hex : (envOf f).pathExistsR = Except.ok true)
    (hst : (envOf f).statMtime = Except.ok c.mtime) :
    ∀ (files : List String) (st : ScanState),
      lokiBy st.table f = some c → f ∉ st.tagReads →
      lokiBy (scanFiles watchPath envOf files st).table f = some c ∧
        f ∉ (scanFiles watchPath envOf files st).tagReads := by
  intro files
  induction files with
  | nil => intro st h1 h2; exact ⟨h1, h2⟩
  | cons g gs ih =>
    intro st h1 h2
    rw [scanFiles_cons]
    by_cases hg : g = f
    · subst hg
      rw [applyStep_skip h1 hex hst]
      exact ih st h1 h2
    · apply ih
      · show lokiBy (handleFile watchPath st.table (envOf g) g).table f = some c
        rw [handleFile_preserves_other hg]
        exact h1
      · show f ∉ (applyStep watchPath envOf st g).tagReads
        have : (applyStep watchPath envOf st g).tagReads = st.tagReads ∨
            (applyStep watchPath envOf st g).tagReads = st.tagReads ++ [g] := by
          unfold applyStep
          cases hti : (handleFile watchPath st.table (envOf g) g).tagReadInvoked with
          | true => right; simp [hti]
          | false => left; simp [hti]
        rcases this with h | h
        · rw [h]; exact h2
        · rw [h]
          intro hmem
          rcases List.mem_append.mp hmem with hmem | hmem
          · exact h2 hmem
          · exact hg (List.mem_singleton.mp hmem).symm

theorem scanFiles_skip_all {watchPath : String} {envOf : String → FileEnv} :
    ∀ (files : List String) (st : ScanState),
      (∀ f ∈ files, ∃ c, lokiBy st.table f = some c ∧
        (envOf f).pathExistsR = Except.ok true ∧
        (envOf f).statMtime = Except.ok c.mtime) →
      scanFiles watchPath envOf files st = st := by
  intro files
  induction files with
  | nil => intro st _; rfl
  | cons g gs ih =>
    intro st h
    obtain ⟨c, hc, hex, hst⟩ := h g (List.mem_cons_self g gs)
    rw [scanFiles_cons, applyStep_skip hc hex hst]
    exact ih st (fun f hf => h f (List.mem_cons_of_mem g hf))

theorem noopPremise_spec {envOf : String → FileEnv} {table0 : List FileRec}
    {watcher0 : List String} (h : noopPremise envOf table0 watcher0 = true) :
    ∀ f ∈ watcher0, ∃ c, lokiBy table0 f = some c ∧
      (envOf f).pathExistsR = Except.ok true ∧
      (envOf f).statMtime = Except.ok c.mtime := by
  intro f hf
  have hp := List.all_eq_true.mp h f hf
  cases hby : lokiBy table0 f with
  | none =>
    rw [hby] at hp
    cases hpe : (envOf f).pathExistsR <;> rw [hpe] at hp <;> simp at hp
  | some c =>
    rw [hby] at hp
    cases hpe : (envOf f).pathExistsR with
    | error e => rw [hpe] at hp; simp at hp
    | ok b =>
      rw [hpe] at hp
      cases b with
      | false => simp at hp
      | true =>
        cases hsm : (envOf f).statMtime with
        | error e => rw [hsm] at hp; simp at hp
        | ok mt =>
          rw [hsm] at hp
          simp at hp
          exact ⟨c, rfl, rfl, by rw [hp]⟩

theorem finishCore_noDirty {t1 t2 : Nat} {st : ScanState}
    (h : lokiFindDirty st.table = []) :
    finishCore t1 t2 st =
      { table := st.table, artifact := none, statusDate := none,
        logLines := st.logLines, errorsOccurred := st.errorsOccurred } := by
  unfold finishCore
  rw [h]
  simp

theorem buildEntries_spec (table : List FileRec) :
    ∀ ps : List String, buildEntries table ps =
      (ps.filterMap (entryView table), ps.filterMap (logView table),
        ps.any (invalidView table)) := by
  intro ps
  induction ps with
  | nil => rfl
  | cons p ps ih =>
    unfold buildEntries
    rw [ih]
    cases hby : lokiBy table p with
    | none => simp [entryView, logView, invalidView, hby]
    | some fd =>
      cases htd : fd.tagData with
      | none => simp [entryView, logView, invalidView, hby, htd]
      | some id3 =>
        cases hv : isTagValid id3 with
        | true => simp [entryView, logView, invalidView, hby, htd, hv]
        | false => simp [entryView, logView, invalidView, hby, htd, hv]

theorem finishCore_dirty {t1 t2 : Nat} {st : ScanState}
    (h : lokiFindDirty st.table ≠ []) :
    finishCore t1 t2 st =
      { table := (st.table.map (fun r => if r.dirty then { r with dirty := false } else r)).filter
          (fun r => st.watcherFiles.contains r.file),
        artifact := some (t1, st.watcherFiles.filterMap (entryView st.table)),
        statusDate := some t2,
        logLines := st.logLines ++ st.watcherFiles.filterMap (logView st.table),
        errorsOccurred := st.errorsOccurred || st.watcherFiles.any (invalidView st.table) } := by
  have hne : (lokiFindDirty st.table).isEmpty = false := by
    cases hd : lokiFindDirty st.table with
    | nil => exact absurd hd h
    | cons a as => rfl
  unfold finishCore
  simp [hne, buildEntries_spec]

/-- C1: for every file in the run snapshot that has a cached record and
whose current on-disk modification-time string equals the cached mtime
string, the tag reader is never invoked for that file during the run and
its cached record is left unchanged. -/
theorem c1_incrementality (watchPath : String) (envOf : String → FileEnv)
    (table0 : List FileRec) (watcher0 : List String) (f : String) (c : FileRec)
    (hc : lokiBy table0 f = some c)
    (hex : (envOf f).pathExistsR = Except.ok true)
    (hst : (envOf f).statMtime = Except.ok c.mtime) :
    f ∉ (runScan watchPath envOf table0 watcher0).tagReads ∧
      lokiBy (runScan watchPath envOf table0 watcher0).table f = some c := by
  have h := @scanFiles_preserves watchPath envOf f c hex hst watcher0
    { table := table0, watcherFiles := watcher0, logLines := [],
      errorsOccurred := false, tagReads := [], uncaughtAny := false }
    hc (by simp)
  exact ⟨h.2, h.1⟩

/-- Witness for C1 at a concrete input: a cached file whose stat mtime
still equals the cached string is neither re-read nor modified. -/
theorem c1_incrementality_witness :
    "/w/a" ∉ (runScan "/w" c2Env [w1Rec] ["/w/a"]).tagReads ∧
      lokiBy (runScan "/w" c2Env [w1Rec] ["/w/a"]).table "/w/a" = some w1Rec :=
  c1_incrementality "/w" c2Env [w1Rec] ["/w/a"] "/w/a" w1Rec (by rfl) (by rfl) (by rfl)

/-- C6: a persisted cache file that exists but yields no usable
collection is deleted and replaced by an empty functioning store, and a
missing persisted cache file yields an empty store; startupLoad is a
total function, so startup completes in both cases. -/
theorem c6_corruption_recovery :
    (startupLoad true none = { table := [], removedLokiFile := true }) ∧
    (∀ loaded : Option (List FileRec),
      startupLoad false loaded = { table := [], removedLokiFile := false }) := by
  exact ⟨rfl, fun _ => rfl⟩

/-- C9: a tick while busy is a no-op, a tick without the watcher dirty
signal is a no-op, a run starts only when the signal is set and the busy
guard clear (and then sets the guard and clears the signal), and
finalization clears the busy guard and fires the run-complete
notification whether or not its body threw. -/
theorem c9_mutual_exclusion :
    (∀ s : PipeState, s.busy = true → tickGuard s = (s, false)) ∧
    (∀ s : PipeState, s.watcherDirty = false → tickGuard s = (s, false)) ∧
    (∀ s : PipeState, (tickGuard s).2 = true →
      s.watcherDirty = true ∧ s.busy = false ∧
      (tickGuard s).1.busy = true ∧ (tickGuard s).1.watcherDirty = false) ∧
    (∀ (ioThrew : Bool) (t1 t2 : Nat) (st : ScanState),
      (finalizeRun ioThrew t1 t2 st).busy = false ∧
      (finalizeRun ioThrew t1 t2 st).doneFired = true) := by
  refine ⟨?_, ?_, ?_, ?_⟩
  · intro s hb
    rcases s with ⟨wd, b, eo, sf⟩
    simp only at hb
    subst hb
    cases wd <;> simp [tickGuard]
  · intro s hw
    rcases s with ⟨wd, b, eo, sf⟩
    simp only at hw
    subst hw
    simp [tickGuard]
  · intro s ht
    rcases s with ⟨wd, b, eo, sf⟩
    cases wd with
    | false => simp [tickGuard] at ht
    | true =>
      cases b with
      | true => simp [tickGuard] at ht
      | false => exact ⟨rfl, rfl, by simp [tickGuard], by simp [tickGuard]⟩
  · intro io t1 t2 st
    exact ⟨rfl, rfl⟩

/-- Witness for C9 at concrete inputs: a busy tick and a clean tick, a
run actually starting, and a finalization whose body threw. -/
theorem c9_mutual_exclusion_witness :
    tickGuard { watcherDirty := true, busy := true, errorsOccurred := false, startFired := false } =
      ({ watcherDirty := true, busy := true, errorsOccurred := false, startFired := false }, false) ∧
    tickGuard { watcherDirty := false, busy := false, errorsOccurred := false, startFired := false } =
      ({ watcherDirty := false, busy := false, errorsOccurred := false, startFired := false }, false) ∧
    ((true : Bool) = true ∧ (false : Bool) = false ∧
      (tickGuard { watcherDirty := true, busy := false, errorsOccurred := true, startFired := false }).1.busy = true ∧
      (tickGuard { watcherDirty := true, busy := false, errorsOccurred := true, startFired := false }).1.watcherDirty = false) ∧
    ((finalizeRun true 0 1 c7St).busy = false ∧ (finalizeRun true 0 1 c7St).doneFired = true) :=
  ⟨c9_mutual_exclusion.1 _ rfl,
   c9_mutual_exclusion.2.1 _ rfl,
   c9_mutual_exclusion.2.2.1 { watcherDirty := true, busy := false, errorsOccurred := true, startFired := false } (by rfl),
   c9_mutual_exclusion.2.2.2 true 0 1 c7St⟩

/-- C10: when the existence check itself throws, before a cache record
object has been constructed for the path, the catch branch dereferences
the undefined record and itself throws: no tag-absent record is upserted,
no error-log line is written, the run error flag is untouched, and the
uncaught exception is recorded; yet the finally clause schedules the next
file, so scanning a list starting with such a file equals scanning the
remaining files. -/
theorem c10_early_exception :
    (∀ (watchPath : String) (table : List FileRec) (env : FileEnv)
        (file : String) (e : JsErr),
      env.pathExistsR = Except.error e →
      handleFile watchPath table env file =
        { table := table, watcherRemoved := false, tagReadInvoked := false,
          logLines := [], errorsOccurred := false, uncaught := true }) ∧
    (∀ (watchPath : String) (envOf : String → FileEnv) (f : String)
        (fs : List String) (st : ScanState) (e : JsErr),
      (envOf f).pathExistsR = Except.error e →
      scanFiles watchPath envOf (f :: fs) st =
        scanFiles watchPath envOf fs { st with uncaughtAny := true }) := by
  constructor
  · intro wp table env file e hex
    exact handleFile_earlyThrow hex
  · intro wp envOf f fs st e hex
    rw [scanFiles_cons]
    have hstep := @handleFile_earlyThrow wp st.table (envOf f) f e hex
    have happ : applyStep wp envOf st f = { st with uncaughtAny := true } := by
      cases st
      simp [applyStep, hstep]
    rw [happ]

/-- Witness for C10 at a concrete input: the existence check throws, the
step leaves the table, log and error flag untouched while recording the
uncaught exception, and the rest of the snapshot is still processed. -/
theorem c10_early_exception_witness :
    handleFile "/w" [w1Rec] c10Env "/w/a" =
      { table := [w1Rec], watcherRemoved := false, tagReadInvoked := false,
        logLines := [], errorsOccurred := false, uncaught := true } ∧
    scanFiles "/w" (fun _ => c10Env) ["/w/a"] c10St =
      scanFiles "/w" (fun _ => c10Env) [] { c10St with uncaughtAny := true } :=
  ⟨c10_early_exception.1 "/w" [w1Rec] c10Env "/w/a" (JsErr.other "boom") rfl,
   c10_early_exception.2 "/w" (fun _ => c10Env) "/w/a" [] c10St (JsErr.other "boom") rfl⟩

/-- C3: whenever at least one record is dirty at finalization, the
rebuilt artifact contains exactly the entries of the paths in the
watcher's current file set whose cached record has tag data present and
passes validation at rebuild time, in snapshot order; records with absent
or invalid tag data contribute exactly their log line instead, and
invalid tag data raises the run error flag. -/
theorem c3_full_snapshot_rebuild (t1 t2 : Nat) (st : ScanState)
    (hd : lokiFindDirty st.table ≠ []) :
    (finishCore t1 t2 st).artifact =
        some (t1, st.watcherFiles.filterMap (entryView st.table)) ∧
    (finishCore t1 t2 st).logLines =
        st.logLines ++ st.watcherFiles.filterMap (logView st.table) ∧
    (finishCore t1 t2 st).errorsOccurred =
        (st.errorsOccurred || st.watcherFiles.any (invalidView st.table)) := by
  rw [finishCore_dirty hd]
  exact ⟨rfl, rfl, rfl⟩

/-- Witness for C3 at a concrete input: one dirty valid record produces
exactly its entry, no log lines, and no error flag. -/
theorem c3_full_snapshot_rebuild_witness :
    (finishCore 0 0 c7St).artifact =
        some (0, c7St.watcherFiles.filterMap (entryView c7St.table)) ∧
    (finishCore 0 0 c7St).logLines =
        c7St.logLines ++ c7St.watcherFiles.filterMap (logView c7St.table) ∧
    (finishCore 0 0 c7St).errorsOccurred =
        (c7St.errorsOccurred || c7St.watcherFiles.any (invalidView c7St.table)) :=
  c3_full_snapshot_rebuild 0 0 c7St (by decide)

/-- C2 as stated is false on the code: in the scenario c2Run1 then
c2Run2, no modification time changes between the two completed runs and
no file is added or removed, yet the second run finds the file dirty
again and rebuilds the artifact and status marker with new timestamps.
The cause, shown by the last conjunct, is that the success branch stores
the empty string instead of the current stat string 2020 as the mtime of
a freshly seen file, because the stat call only runs on a cache hit. -/
theorem c2_counterexample :
    lokiFindDirty (runScan "/w" c2Env c2Run1.table ["/w/a"]).table ≠ [] ∧
    c2Run2.artifact ≠ c2Run1.artifact ∧
    c2Run2.statusDate ≠ c2Run1.statusDate ∧
    c2Run1.artifact = some (0,
      [{ album := some "Al", artist := some "Ar",
         name := some "T", path := "//a" }]) ∧
    c2Run2.artifact = some (1,
      [{ album := some "Al", artist := some "Ar",
         name := some "T", path := "//a" }]) ∧
    lokiBy c2Run1.table "/w/a" =
      some { file := "/w/a", mtime := "",
             tagData := some { name := some "T", album := some "Al",
                               track := some "1", artist := some "Ar",
                               clippedPath := "//a" },
             isValid := some true, dirty := false } := by
  refine ⟨?_, ?_, ?_, ?_, ?_, ?_⟩ <;> decide

/-- C2 amended: a triggered run over a snapshot in which every file has a
cached record whose stored mtime string equals the file's current stat
string, starting from a cache with no dirty records, produces zero dirty
records and no rebuild: the artifact and status marker are not written
and the cache is unchanged. On a tag-read success with an eligible kind
the record's mtime is set to the current stat string only when the file
had a cached record, because the stat call runs only on a cache hit; for
a freshly seen file it is set to the empty string. -/
theorem c2_amended :
    (∀ (watchPath : String) (envOf : String → FileEnv) (t1 t2 : Nat)
        (table0 : List FileRec) (watcher0 : List String),
      lokiFindDirty table0 = [] →
      noopPremise envOf table0 watcher0 = true →
      (runOnce watchPath envOf t1 t2 table0 watcher0).artifact = none ∧
      (runOnce watchPath envOf t1 t2 table0 watcher0).statusDate = none ∧
      (runOnce watchPath envOf t1 t2 table0 watcher0).table = table0 ∧
      lokiFindDirty (runScan watchPath envOf table0 watcher0).table = []) ∧
    (∀ (watchPath : String) (table : List FileRec) (env : FileEnv)
        (file : String) (c : FileRec) (mt : String) (tag : MediaTag),
      lokiBy table file = some c →
      env.pathExistsR = Except.ok true →
      env.statMtime = Except.ok mt →
      (mt == c.mtime) = false →
      env.tagRead = Except.ok tag →
      (tag.type == "ID3" || tag.type == "MP4") = true →
      lokiBy (handleFile watchPath table env file).table file =
        some ⟨c.file, mt, some (tagDataOf watchPath tag file),
          some (isTagValid (tagDataOf watchPath tag file)), true⟩) ∧
    (∀ (watchPath : String) (table : List FileRec) (env : FileEnv)
        (file : String) (tag : MediaTag),
      lokiBy table file = none →
      env.pathExistsR = Except.ok true →
      env.tagRead = Except.ok tag →
      (tag.type == "ID3" || tag.type == "MP4") = true →
      lokiBy (handleFile watchPath table env file).table file =
        some ⟨file, "", some (tagDataOf watchPath tag file),
          some (isTagValid (tagDataOf watchPath tag file)), true⟩) := by
  refine ⟨?_, ?_, ?_⟩
  · intro wp envOf t1 t2 table0 watcher0 hnd hpre
    have hscan : runScan wp envOf table0 watcher0 =
        { table := table0, watcherFiles := watcher0, logLines := [],
          errorsOccurred := false, tagReads := [], uncaughtAny := false } :=
      scanFiles_skip_all watcher0 _ (noopPremise_spec hpre)
    have hfin := @finishCore_noDirty t1 t2
      { table := table0, watcherFiles := watcher0, logLines := [],
        errorsOccurred := false, tagReads := [], uncaughtAny := false } hnd
    refine ⟨?_, ?_, ?_, ?_⟩
    · show (finishCore t1 t2 (runScan wp envOf table0 watcher0)).artifact = none
      rw [hscan, hfin]
    · show (finishCore t1 t2 (runScan wp envOf table0 watcher0)).statusDate = none
      rw [hscan, hfin]
    · show (finishCore t1 t2 (runScan wp envOf table0 watcher0)).table = table0
      rw [hscan, hfin]
    · rw [hscan]
      exact hnd
  · intro wp table env file c mt tag hc hex hst hmt htr hty
    rw [handleFile_changed hc hex hst hmt, afterLookup_okEligible htr hty]
    have hr0 : c.file = file := lokiBy_file hc
    have h2 := lokiBy_update_self (r := ⟨c.file, mt, some (tagDataOf wp tag file),
      some (isTagValid (tagDataOf wp tag file)), true⟩) hc hr0
    simpa using h2
  · intro wp table env file tag hc hex htr hty
    rw [handleFile_fresh hc hex, afterLookup_okEligible htr hty]
    have hr : (⟨file, "", some (tagDataOf wp tag file),
        some (isTagValid (tagDataOf wp tag file)), true⟩ : FileRec).file = file := rfl
    have h2 := lokiBy_insert_self hc hr
    simpa [freshRec] using h2

/-- Witness for C2 amended at concrete inputs: a fully cached unchanged
snapshot is a no-op run, a cache-hit re-read stores the stat string, and
a fresh-file read stores the empty string. -/
theorem c2_amended_witness :
    ((runOnce "/w" c2Env 0 0 [w1Rec] ["/w/a"]).artifact = none ∧
     (runOnce "/w" c2Env 0 0 [w1Rec] ["/w/a"]).statusDate = none ∧
     (runOnce "/w" c2Env 0 0 [w1Rec] ["/w/a"]).table = [w1Rec] ∧
     lokiFindDirty (runScan "/w" c2Env [w1Rec] ["/w/a"]).table = []) ∧
    lokiBy (handleFile "/w" [c4Rec] (c2Env "/w/b") "/w/b").table "/w/b" =
      some ⟨c4Rec.file, "2020", some (tagDataOf "/w" c2Tag "/w/b"),
        some (isTagValid (tagDataOf "/w" c2Tag "/w/b")), true⟩ ∧
    lokiBy (handleFile "/w" [] (c2Env "/w/a") "/w/a").table "/w/a" =
      some ⟨"/w/a", "", some (tagDataOf "/w" c2Tag "/w/a"),
        some (isTagValid (tagDataOf "/w" c2Tag "/w/a")), true⟩ :=
  ⟨c2_amended.1 "/w" c2Env 0 0 [w1Rec] ["/w/a"] (by decide) (by decide),
   c2_amended.2.1 "/w" [c4Rec] (c2Env "/w/b") "/w/b" c4Rec "2020" c2Tag
     (by decide) (by rfl) (by rfl) (by decide) (by rfl) (by decide),
   c2_amended.2.2 "/w" [] (c2Env "/w/a") "/w/a" c2Tag
     (by decide) (by rfl) (by rfl) (by decide)⟩

/-- C4 as stated is false on the code: with a cached record for the
removed path and no dirty records, finalization returns before the
orphan-removal step, so after one completed run the record for the
removed path is still in the cache. -/
theorem c4_counterexample :
    (runOnce "/w" c2Env 0 0 [c4Rec] []).table = [c4Rec] ∧
    lokiBy (runOnce "/w" c2Env 0 0 [c4Rec] []).table "/w/b" = some c4Rec := by
  refine ⟨?_, ?_⟩ <;> decide

/-- C4 amended: orphan removal runs only in a finalization that sees at
least one dirty record; in such a run every cached record whose path is
absent from the watcher's current file set is removed, and every entry of
the rebuilt artifact comes from a path of the current watcher set; a
finalization with zero dirty records leaves the cache unchanged and
rebuilds nothing. -/
theorem c4_amended :
    (∀ (t1 t2 : Nat) (st : ScanState), lokiFindDirty st.table ≠ [] →
      (∀ r ∈ (finishCore t1 t2 st).table, r.file ∈ st.watcherFiles) ∧
      (∀ es, (finishCore t1 t2 st).artifact = some (t1, es) →
        ∀ e ∈ es, ∃ p ∈ st.watcherFiles, entryView st.table p = some e)) ∧
    (∀ (t1 t2 : Nat) (st : ScanState), lokiFindDirty st.table = [] →
      (finishCore t1 t2 st).table = st.table ∧
      (finishCore t1 t2 st).artifact = none) := by
  constructor
  · intro t1 t2 st hd
    rw [finishCore_dirty hd]
    constructor
    · intro r hr
      simp only [List.mem_filter] at hr
      simpa using hr.2
    · intro es hes e he
      have hes2 : es = st.watcherFiles.filterMap (entryView st.table) := by
        have h0 := Option.some.inj hes
        exact (congrArg Prod.snd h0).symm
      rw [hes2] at he
      exact List.mem_filterMap.mp he
  · intro t1 t2 st hd
    rw [finishCore_noDirty hd]
    exact ⟨rfl, rfl⟩

/-- Witness for C4 amended at concrete inputs: a finalization with a
dirty record and an orphan, and a finalization with no dirty records. -/
theorem c4_amended_witness :
    ((∀ r ∈ (finishCore 0 0 c4St).table, r.file ∈ c4St.watcherFiles) ∧
     (∀ es, (finishCore 0 0 c4St).artifact = some (0, es) →
       ∀ e ∈ es, ∃ p ∈ c4St.watcherFiles, entryView c4St.table p = some e)) ∧
    ((finishCore 0 0 c4StClean).table = c4StClean.table ∧
     (finishCore 0 0 c4StClean).artifact = none) :=
  ⟨c4_amended.1 0 0 c4St (by decide), c4_amended.2 0 0 c4StClean (by decide)⟩

/-- C5 as stated is false on one point of the code: when the exception is
thrown by the existence check itself, before a record is constructed for
the path, no record is upserted, no error-log line is appended and the
errors-occurred flag is not set; the catch itself throws instead. -/
theorem c5_counterexample :
    handleFile "/w" [w1Rec] c10Env "/w/a" =
      { table := [w1Rec], watcherRemoved := false, tagReadInvoked := false,
        logLines := [], errorsOccurred := false, uncaught := true } := by
  decide

/-- C5 amended: when the tag read for a file fails, or any other
exception is thrown in the per-file step after the cache lookup has
assigned a record, a record is upserted for that path with tag data
absent, dirty false, and mtime set to the current stat string if the stat
call had run and the empty string otherwise; exactly one descriptive line
is appended to the error log, distinguishing tag-read failure from
generic read failure; the errors-occurred flag is raised, and the step
completes without aborting the run. An exception thrown before the cache
lookup upserts and logs nothing. -/
theorem c5_amended :
    (∀ (watchPath : String) (table : List FileRec) (env : FileEnv)
        (file : String) (c : FileRec) (mt : String) (e : JsErr),
      lokiBy table file = some c →
      env.pathExistsR = Except.ok true →
      env.statMtime = Except.ok mt →
      (mt == c.mtime) = false →
      env.tagRead = Except.error e →
      handleFile watchPath table env file =
        { table := lokiUpdate table ⟨c.file, mt, none, c.isValid, false⟩,
          watcherRemoved := false, tagReadInvoked := true,
          logLines := [failMessage file e ++ " : " ++ errText e],
          errorsOccurred := true, uncaught := false } ∧
      lokiBy (handleFile watchPath table env file).table file =
        some ⟨c.file, mt, none, c.isValid, false⟩) ∧
    (∀ (watchPath : String) (table : List FileRec) (env : FileEnv)
        (file : String) (e : JsErr),
      lokiBy table file = none →
      env.pathExistsR = Except.ok true →
      env.tagRead = Except.error e →
      handleFile watchPath table env file =
        { table := lokiInsert table ⟨file, "", none, none, false⟩,
          watcherRemoved := false, tagReadInvoked := true,
          logLines := [failMessage file e ++ " : " ++ errText e],
          errorsOccurred := true, uncaught := false } ∧
      lokiBy (handleFile watchPath table env file).table file =
        some ⟨file, "", none, none, false⟩) ∧
    (∀ (watchPath : String) (table : List FileRec) (env : FileEnv)
        (file : String) (c : FileRec) (e : JsErr),
      lokiBy table file = some c →
      env.pathExistsR = Except.ok true →
      env.statMtime = Except.error e →
      handleFile watchPath table env file =
        { table := lokiUpdate table ⟨c.file, "", none, c.isValid, false⟩,
          watcherRemoved := false, tagReadInvoked := false,
          logLines := [failMessage file e ++ " : " ++ errText e],
          errorsOccurred := true, uncaught := false } ∧
      lokiBy (handleFile watchPath table env file).table file =
        some ⟨c.file, "", none, c.isValid, false⟩) := by
  refine ⟨?_, ?_, ?_⟩
  · intro wp table env file c mt e hc hex hst hmt htr
    have heq : handleFile wp table env file =
        { table := lokiUpdate table ⟨c.file, mt, none, c.isValid, false⟩,
          watcherRemoved := false, tagReadInvoked := true,
          logLines := [failMessage file e ++ " : " ++ errText e],
          errorsOccurred := true, uncaught := false } := by
      rw [handleFile_changed hc hex hst hmt, afterLookup_tagThrow htr]
      rfl
    refine ⟨heq, ?_⟩
    rw [heq]
    have hr0 : c.file = file := lokiBy_file hc
    exact lokiBy_update_self (r := ⟨c.file, mt, none, c.isValid, false⟩) hc hr0
  · intro wp table env file e hc hex htr
    have heq : handleFile wp table env file =
        { table := lokiInsert table ⟨file, "", none, none, false⟩,
          watcherRemoved := false, tagReadInvoked := true,
          logLines := [failMessage file e ++ " : " ++ errText e],
          errorsOccurred := true, uncaught := false } := by
      rw [handleFile_fresh hc hex, afterLookup_tagThrow htr]
      rfl
    refine ⟨heq, ?_⟩
    rw [heq]
    exact lokiBy_insert_self hc rfl
  · intro wp table env file c e hc hex hst
    have heq : handleFile wp table env file =
        { table := lokiUpdate table ⟨c.file, "", none, c.isValid, false⟩,
          watcherRemoved := false, tagReadInvoked := false,
          logLines := [failMessage file e ++ " : " ++ errText e],
          errorsOccurred := true, uncaught := false } := by
      rw [handleFile_statThrow hc hex hst]
      rfl
    refine ⟨heq, ?_⟩
    rw [heq]
    have hr0 : c.file = file := lokiBy_file hc
    exact lokiBy_update_self (r := ⟨c.file, "", none, c.isValid, false⟩) hc hr0

/-- Witness for C5 amended at a concrete input: a cache hit whose tag
read fails with a tagfail error is re-cached tag-absent with the stat
string, one log line and the error flag. -/
theorem c5_amended_witness :
    (handleFile "/w" [w1Rec] c5Env "/w/a" =
      { table := lokiUpdate [w1Rec] ⟨w1Rec.file, "2021", none, w1Rec.isValid, false⟩,
        watcherRemoved := false, tagReadInvoked := true,
        logLines := [failMessage "/w/a" (JsErr.tagfail "bad frame") ++ " : " ++
          errText (JsErr.tagfail "bad frame")],
        errorsOccurred := true, uncaught := false } ∧
     lokiBy (handleFile "/w" [w1Rec] c5Env "/w/a").table "/w/a" =
       some ⟨w1Rec.file, "2021", none, w1Rec.isValid, false⟩) :=
  c5_amended.1 "/w" [w1Rec] c5Env "/w/a" w1Rec "2021" (JsErr.tagfail "bad frame")
    (by decide) (by rfl) (by rfl) (by decide) (by rfl)

/-- C7 as stated is false on the code: the artifact date attribute and
the status marker date come from two separate clock readings, one taken
when the artifact root element is opened and one taken after the artifact
file has been written; in a rebuild where the clock advanced in between,
here from 0 to 1, the two documents carry different date values. -/
theorem c7_counterexample :
    (finishCore 0 1 c7St).artifact =
      some (0, [{ album := some "Al", artist := some "Ar",
                  name := some "T", path := "//a" }]) ∧
    (finishCore 0 1 c7St).statusDate = some 1 ∧ (0 : Nat) ≠ 1 := by
  refine ⟨?_, ?_, ?_⟩ <;> decide

/-- C7 amended: whenever the artifact is rebuilt, its date attribute is
the first clock reading and the status marker carries the second clock
reading, taken after the artifact is written; under a monotone clock the
status marker date is therefore at least the artifact date, and the two
coincide exactly when the clock did not advance in between. -/
theorem c7_amended (t1 t2 : Nat) (st : ScanState)
    (hmono : t1 ≤ t2) (hd : lokiFindDirty st.table ≠ []) :
    ∃ es, (finishCore t1 t2 st).artifact = some (t1, es) ∧
      (finishCore t1 t2 st).statusDate = some t2 ∧ t1 ≤ t2 := by
  rw [finishCore_dirty hd]
  exact ⟨_, rfl, rfl, hmono⟩

/-- Witness for C7 amended at a concrete input. -/
theorem c7_amended_witness :
    ∃ es, (finishCore 0 1 c7St).artifact = some (0, es) ∧
      (finishCore 0 1 c7St).statusDate = some 1 ∧ (0 : Nat) ≤ 1 :=
  c7_amended 0 1 c7St (by decide) (by decide)

/-- C8 as stated is false on the code: a successful tag read whose kind
is neither ID3 nor MP4 is not handled like a failure; the source has no
else branch on its kind test, so the file is skipped silently: no
tag-absent record is cached, no error-log line is written and the
errors-occurred flag stays clear. -/
theorem c8_counterexample :
    handleFile "/w" [] c8Env "/w/a" =
      { table := [], watcherRemoved := false, tagReadInvoked := true,
        logLines := [], errorsOccurred := false, uncaught := false } := by
  decide

/-- C8 amended: when the tag reader succeeds but returns a kind other
than ID3 or MP4, the file is not indexed, and it is also not treated as a
failure: whether the file was freshly seen or a cache hit with a changed
mtime, the step leaves the cache unchanged, appends no log line, leaves
the errors-occurred flag clear, and completes normally. -/
theorem c8_amended :
    (∀ (watchPath : String) (table : List FileRec) (env : FileEnv)
        (file : String) (tag : MediaTag),
      lokiBy table file = none →
      env.pathExistsR = Except.ok true →
      env.tagRead = Except.ok tag →
      (tag.type == "ID3" || tag.type == "MP4") = false →
      handleFile watchPath table env file =
        { table := table, watcherRemoved := false, tagReadInvoked := true,
          logLines := [], errorsOccurred := false, uncaught := false }) ∧
    (∀ (watchPath : String) (table : List FileRec) (env : FileEnv)
        (file : String) (c : FileRec) (mt : String) (tag : MediaTag),
      lokiBy table file = some c →
      env.pathExistsR = Except.ok true →
      env.statMtime = Except.ok mt →
      (mt == c.mtime) = false →
      env.tagRead = Except.ok tag →
      (tag.type == "ID3" || tag.type == "MP4") = false →
      handleFile watchPath table env file =
        { table := table, watcherRemoved := false, tagReadInvoked := true,
          logLines := [], errorsOccurred := false, uncaught := false }) := by
  constructor
  · intro wp table env file tag hc hex htr hty
    rw [handleFile_fresh hc hex, afterLookup_okOther htr hty]
  · intro wp table env file c mt tag hc hex hst hmt htr hty
    rw [handleFile_changed hc hex hst hmt, afterLookup_okOther htr hty]

/-- Witness for C8 amended at a concrete input: an OGG-kind success on a
fresh file is silently skipped. -/
theorem c8_amended_witness :
    handleFile "/w" [] c8Env "/w/a" =
      { table := [], watcherRemoved := false, tagReadInvoked := true,
        logLines := [], errorsOccurred := false, uncaught := false } :=
  c8_amended.1 "/w" [] c8Env "/w/a" { c2Tag with type := "OGG" }
    (by rfl) (by rfl) (by rfl) (by decide)
